import Mathlib

/-!
Shallow embedding of the `earc` Gmail-sync / attachment-ingestion pipeline
(NestJS + Prisma + googleapis).  Each definition mirrors one function of
the TypeScript source (`GmailService`, `DriveService`); remote services
(Gmail API, Drive API, Prisma store reads that race with other actors)
are modelled by explicit environment records whose fields hold the
outcome of each remote call.  JavaScript truthiness of optional strings
and numbers is modelled explicitly.
-/

namespace Earc

/-- JS truthiness of an optional string: `undefined`/`null` and the empty
string are falsy, every other string is truthy. -/
def optStrTruthy : Option String → Bool
  | some s => s ≠ ""
  | none => false

/-- Boolean test that the first character list is a prefix of the second. -/
def charsPrefixOf : List Char → List Char → Bool
  | [], _ => true
  | _ :: _, [] => false
  | a :: as, b :: bs => a = b && charsPrefixOf as bs

/-- Boolean test that the first character list occurs contiguously inside
the second. -/
def charsInfixOf (pat : List Char) : List Char → Bool
  | [] => charsPrefixOf pat []
  | c :: rest => charsPrefixOf pat (c :: rest) || charsInfixOf pat rest

/-- JS `String.prototype.includes`: substring test on character lists. -/
def strIncludes (s pat : String) : Bool :=
  charsInfixOf pat.data s.data

/-- `value || fallback` on an optional string: the fallback is used when
the value is absent or empty (falsy). -/
def orElseStr (v : Option String) (fallback : String) : String :=
  match v with
  | some s => if s = "" then fallback else s
  | none => fallback

/-! ### Gmail message part data model (`gmail_v1.Schema$MessagePart`) -/

/-- One MIME header (`Schema$MessagePartHeader`): both fields optional. -/
structure GHeader where
  name : Option String
  value : Option String
deriving DecidableEq

/-- A MIME part body (`Schema$MessagePartBody`). -/
structure GBody where
  attachmentId : Option String
  size : Option Int
  data : Option String
deriving DecidableEq

/-- A MIME part (`Schema$MessagePart`): possibly-nested tree.  The child
list is `Option (List GPart)` because the source distinguishes an absent
`parts` field (falsy) from a present, possibly empty array (truthy). -/
inductive GPart where
  | mk : Option String → Option String → Option (List GHeader) →
         Option GBody → Option (List GPart) → GPart

/-- `mimeType` field accessor. -/
def GPart.mimeType : GPart → Option String
  | .mk mt _ _ _ _ => mt

/-- `filename` field accessor. -/
def GPart.filename : GPart → Option String
  | .mk _ fn _ _ _ => fn

/-- `headers` field accessor. -/
def GPart.headers : GPart → Option (List GHeader)
  | .mk _ _ hs _ _ => hs

/-- `body` field accessor. -/
def GPart.body : GPart → Option GBody
  | .mk _ _ _ b _ => b

/-- `parts` (children) field accessor. -/
def GPart.parts : GPart → Option (List GPart)
  | .mk _ _ _ _ ps => ps

/-- `GmailService.extractParts`: if the `parts` field is present (truthy,
even when the array is empty) recurse into each child and concatenate;
otherwise push the part itself. -/
def extractParts (part : GPart) : List GPart :=
  match part with
  | .mk _ _ _ _ (some subs) =>
      subs.attach.flatMap (fun x => extractParts x.1)
  | p => [p]
termination_by sizeOf part
decreasing_by
  simp_wf
  have h1 := List.sizeOf_lt_of_mem x.2
  omega

/-- All nodes of a part tree in depth-first preorder (specification-side
notion used to state what `extractParts` returns). -/
def preorder (part : GPart) : List GPart :=
  match part with
  | .mk _ _ _ _ (some subs) =>
      part :: subs.attach.flatMap (fun x => preorder x.1)
  | p => [p]
termination_by sizeOf part
decreasing_by
  simp_wf
  have h1 := List.sizeOf_lt_of_mem x.2
  omega

/-! ### Attachment classifier (`GmailService.isAttachment`) -/

/-- The disposition check inside `isAttachment`: inside `if (part.headers)`,
find the first header whose (optional) name lower-cases to
`content-disposition` and test whether its value contains `attachment`. -/
def dispositionMarksAttachment (headers : Option (List GHeader)) : Bool :=
  match headers with
  | some hs =>
      match hs.find? (fun h => (h.name.map String.toLower) = some "content-disposition") with
      | some h =>
          match h.value with
          | some v => strIncludes v "attachment"
          | none => false
      | none => false
  | none => false

/-- JS truthiness of the declared byte size combined with `size > 0`:
`part.body?.size && part.body.size > 0`. -/
def sizeTruthyPos : Option Int → Bool
  | some n => n ≠ 0 && n > 0
  | none => false

/-- `GmailService.isAttachment`, same cascade as the source:
(1) `part.body?.attachmentId` truthy; (2) the content-disposition header
value contains `attachment`; (3) `part.filename` truthy and declared
size truthy and positive. -/
def isAttachment (part : GPart) : Bool :=
  if optStrTruthy (part.body.bind GBody.attachmentId) then true
  else if dispositionMarksAttachment part.headers then true
  else optStrTruthy part.filename && sizeTruthyPos (part.body.bind GBody.size)

/-- Specification-side rule 1: the part carries a provider
attachment-content reference. -/
def ruleContentRef (part : GPart) : Bool :=
  optStrTruthy (part.body.bind GBody.attachmentId)

/-- Specification-side rule 2: disposition metadata marks the part as an
attachment. -/
def ruleDisposition (part : GPart) : Bool :=
  dispositionMarksAttachment part.headers

/-- Specification-side rule 3: the part has both a filename and a
positive declared byte size. -/
def ruleFilenameSize (part : GPart) : Bool :=
  optStrTruthy part.filename && sizeTruthyPos (part.body.bind GBody.size)

/-! ### Base64 / UTF-8 decoding (`Buffer.from(data, "base64").toString("utf8")`) -/

/-- Value of one base64 character; accepts both the standard and the
URL-safe alphabet (Gmail returns URL-safe base64), `none` for padding
and foreign characters, which `Buffer.from` skips. -/
def b64Val (c : Char) : Option Nat :=
  if 65 ≤ c.toNat ∧ c.toNat ≤ 90 then some (c.toNat - 65)
  else if 97 ≤ c.toNat ∧ c.toNat ≤ 122 then some (c.toNat - 97 + 26)
  else if 48 ≤ c.toNat ∧ c.toNat ≤ 57 then some (c.toNat - 48 + 52)
  else if c = '+' ∨ c = '-' then some 62
  else if c = '/' ∨ c = '_' then some 63
  else none

/-- Packs a list of base64 sextets into bytes, 4 sextets to 3 bytes,
truncating trailing bits as `Buffer.from` does. -/
def b64Pack : List Nat → List Nat
  | a :: b :: c :: d :: rest =>
      (a * 4 + b / 16) % 256 :: (b % 16 * 16 + c / 4) % 256 ::
        (c % 4 * 64 + d) % 256 :: b64Pack rest
  | [a, b, c] => [(a * 4 + b / 16) % 256, (b % 16 * 16 + c / 4) % 256]
  | [a, b] => [(a * 4 + b / 16) % 256]
  | _ => []

/-- Base64 decoding to raw bytes. -/
def b64Bytes (s : String) : List Nat :=
  b64Pack (s.data.filterMap b64Val)

/-- UTF-8 decoding of a byte list (fuel-indexed; the wrapper passes the
list length, which bounds the number of steps). -/
def utf8Go : Nat → List Nat → List Char
  | 0, _ => []
  | _ + 1, [] => []
  | fuel + 1, b :: rest =>
    if b < 128 then Char.ofNat b :: utf8Go fuel rest
    else if 192 ≤ b ∧ b < 224 then
      match rest with
      | c :: rest2 =>
          if 128 ≤ c ∧ c < 192 then
            Char.ofNat ((b - 192) * 64 + (c - 128)) :: utf8Go fuel rest2
          else Char.ofNat 65533 :: utf8Go fuel rest
      | [] => [Char.ofNat 65533]
    else if 224 ≤ b ∧ b < 240 then
      match rest with
      | c :: d :: rest2 =>
          if (128 ≤ c ∧ c < 192) ∧ 128 ≤ d ∧ d < 192 then
            Char.ofNat ((b - 224) * 4096 + (c - 128) * 64 + (d - 128)) :: utf8Go fuel rest2
          else Char.ofNat 65533 :: utf8Go fuel rest
      | _ => [Char.ofNat 65533]
    else if 240 ≤ b ∧ b < 248 then
      match rest with
      | c :: d :: e :: rest2 =>
          if (128 ≤ c ∧ c < 192) ∧ (128 ≤ d ∧ d < 192) ∧ 128 ≤ e ∧ e < 192 then
            Char.ofNat ((b - 240) * 262144 + (c - 128) * 4096 + (d - 128) * 64 + (e - 128)) ::
              utf8Go fuel rest2
          else Char.ofNat 65533 :: utf8Go fuel rest
      | _ => [Char.ofNat 65533]
    else Char.ofNat 65533 :: utf8Go fuel rest

/-- `Buffer.from(s, "base64").toString("utf8")`. -/
def decodeB64Utf8 (s : String) : String :=
  ⟨utf8Go (b64Bytes s).length (b64Bytes s)⟩

/-! ### Relational store model (Prisma `Email` / `Attachment` / `Token`) -/

/-- One `Email` row.  `recId` models the store-assigned primary key,
`messageId` carries the provider identifier with a uniqueness
constraint. -/
structure EmailRec where
  recId : Nat
  messageId : String
  userId : Option String
  threadId : String
  subject : String
  sender : String
  recipients : String
  cc : String
  bcc : String
  dateMs : Int
  bodyText : String
  bodyHtml : String
deriving DecidableEq

/-- One `Attachment` row, owned by the email with primary key `emailId`. -/
structure AttachmentRec where
  emailId : Nat
  fileName : String
  mimeType : String
  driveLink : String
deriving DecidableEq

/-- One `Token` row (only the fields the sync logic reads). -/
structure TokenRec where
  tokId : Nat
  userId : Option String
  historyId : Option String
deriving DecidableEq

/-- The relational store: a fresh-key counter plus the two tables the
pipeline writes. -/
structure Store where
  nextId : Nat
  emails : List EmailRec
  attachments : List AttachmentRec
deriving DecidableEq

/-- `prisma.email.findUnique({ where: { messageId } })`. -/
def findEmail (store : Store) (mid : String) : Option EmailRec :=
  store.emails.find? (fun e => e.messageId = mid)

/-- Successful `prisma.email.create`: appends the row and advances the
key counter.  Callers must have checked the uniqueness constraint. -/
def insertEmail (store : Store) (e : EmailRec) : Store :=
  { store with nextId := store.nextId + 1, emails := store.emails ++ [e] }

/-- Number of `Email` rows carrying a given provider message identifier. -/
def emailCount (store : Store) (mid : String) : Nat :=
  (store.emails.filter (fun e => e.messageId = mid)).length

/-! ### Drive service (`DriveService`) -/

/-- `AttachmentData`: decoded attachment bytes plus metadata. -/
structure AttachmentData where
  fileName : String
  mimeType : String
  data : List Nat
  size : Nat
deriving DecidableEq

/-- `DriveUploadResult`. -/
structure DriveUploadResult where
  fileId : String
  fileName : String
  mimeType : String
  size : Int
  webViewLink : String
  webContentLink : String
deriving DecidableEq

/-- The fields of a `drive.files.create` response that `uploadFile`
reads; every one is optional. -/
structure DriveFileResp where
  id : Option String
  name : Option String
  mimeType : Option String
  size : Option String
  webViewLink : Option String
  webContentLink : Option String
deriving DecidableEq

/-- Outcome of one `drive.files.create` upload call plus the subsequent
permission grant: the call may throw, or return a response after which
the `permissions.create` call succeeds or throws. -/
inductive UploadCallOutcome where
  | throwErr
  | resp (r : DriveFileResp) (permOk : Bool)

/-- Outcome of the `drive.files.create` call that makes a per-message
subfolder. -/
inductive SubfolderOutcome where
  | throwErr
  | created (id : Option String)

/-- Environment for one `uploadAttachments` batch: outcome of the
root-folder resolution (`none` models `getOrCreateAttachmentsFolder`
throwing), of the subfolder creation, and of the i-th file upload. -/
structure DriveEnv where
  rootFolder : Option String
  subfolder : SubfolderOutcome
  upload : Nat → UploadCallOutcome

/-- JS `parseInt` restricted to the strings this code feeds it: value of
the leading decimal-digit run, `0` when there is none (the source only
ever parses `file.size || '0'`). -/
def jsParseInt (s : String) : Int :=
  Int.ofNat ((s.data.takeWhile Char.isDigit).foldl (fun acc c => acc * 10 + (c.toNat - 48)) 0)

/-- `DriveService.uploadFile`: `none` models the function throwing
(`Drive upload failed`), which happens when the create call throws, when
the response has no (truthy) file id, or when the permission grant
throws; otherwise the result is assembled from the response with the
source's `||` fallbacks.  The folder argument only affects the remote
call, not the result. -/
def uploadFile (att : AttachmentData) (_folderId : Option String)
    (outc : UploadCallOutcome) : Option DriveUploadResult :=
  match outc with
  | .throwErr => none
  | .resp r permOk =>
    if optStrTruthy r.id = false then none
    else if permOk = false then none
    else some
      { fileId := r.id.getD ""
        fileName := orElseStr r.name att.fileName
        mimeType := orElseStr r.mimeType att.mimeType
        size := jsParseInt (orElseStr r.size "0")
        webViewLink := orElseStr r.webViewLink ""
        webContentLink := orElseStr r.webContentLink "" }

/-- The character class stripped by `sanitizeFolderName`. -/
def illegalFolderChar (c : Char) : Bool :=
  c = '<' || c = '>' || c = ':' || c = Char.ofNat 34 || c = '/' || c = '\\' ||
    c = '|' || c = '?' || c = '*'

/-- JS `String.prototype.trim`: drop whitespace from both ends. -/
def trimChars (cs : List Char) : List Char :=
  ((cs.dropWhile Char.isWhitespace).reverse.dropWhile Char.isWhitespace).reverse

/-- `DriveService.sanitizeFolderName`: strip illegal characters,
truncate to 100 characters, trim surrounding whitespace. -/
def sanitizeFolderName (subject : String) : String :=
  ⟨trimChars ((subject.data.filter (fun c => !illegalFolderChar c)).take 100)⟩

/-- `DriveService.createEmailFolder`: always issues one create call for
a subfolder named from the sanitized subject; on a thrown error, or a
response without a truthy id, falls back to the parent folder id. -/
def createEmailFolder (outc : SubfolderOutcome) (parentFolderId : String) : String :=
  match outc with
  | .throwErr => parentFolderId
  | .created idOpt => orElseStr idOpt parentFolderId

/-- The `attachments.length > 1 && emailSubject` guard of
`uploadAttachments`: the subject used for a subfolder, when the batch
has more than one attachment and the subject is truthy. -/
def subjectForSubfolder (attachCount : Nat) (emailSubject : Option String) : Option String :=
  match emailSubject with
  | some s => if 1 < attachCount ∧ s ≠ "" then some s else none
  | none => none

/-- Target folder of an `uploadAttachments` batch. -/
def uploadTargetOf (env : DriveEnv) (attachCount : Nat) (emailSubject : Option String)
    (mainFolderId : String) : String :=
  match subjectForSubfolder attachCount emailSubject with
  | some _ => createEmailFolder env.subfolder mainFolderId
  | none => mainFolderId

/-- Names of the subfolder create calls an `uploadAttachments` batch
issues (one call — with the sanitized subject — exactly when the
subfolder guard holds; there is no lookup of existing folders first). -/
def subfolderCalls (attachCount : Nat) (emailSubject : Option String) : List String :=
  match subjectForSubfolder attachCount emailSubject with
  | some s => [sanitizeFolderName s]
  | none => []

/-- The per-attachment upload loop of `uploadAttachments`: each
attachment is attempted; a throwing upload is logged and skipped.
Returns the successful results in order plus one attempt entry
(file name, target folder) per attachment. -/
def uploadLoop (env : DriveEnv) (target : String) :
    Nat → List AttachmentData → List DriveUploadResult × List (String × String)
  | _, [] => ([], [])
  | i, a :: rest =>
    let res := uploadFile a (some target) (env.upload i)
    let next := uploadLoop env target (i + 1) rest
    match res with
    | some r => (r :: next.1, (a.fileName, target) :: next.2)
    | none => (next.1, (a.fileName, target) :: next.2)

/-- Observable trace of one `uploadAttachments` batch. -/
structure UploadBatchTrace where
  attempts : List (String × String)
  createCalls : List String
deriving DecidableEq

/-- `DriveService.uploadAttachments`: empty input short-circuits; a
throwing root-folder resolution is caught and yields `[]`; otherwise
uploads go to the root folder, or to one newly created per-message
subfolder when there is more than one attachment and a truthy subject. -/
def uploadAttachments (env : DriveEnv) (attachments : List AttachmentData)
    (emailSubject : Option String) : List DriveUploadResult × UploadBatchTrace :=
  if attachments.isEmpty then ([], ⟨[], []⟩)
  else
    match env.rootFolder with
    | none => ([], ⟨[], []⟩)
    | some mainFolderId =>
      let target := uploadTargetOf env attachments.length emailSubject mainFolderId
      let lr := uploadLoop env target 0 attachments
      (lr.1, ⟨lr.2, subfolderCalls attachments.length emailSubject⟩)

/-! ### Attachment download and extraction (`GmailService`) -/

/-- Outcome of one `gmail.users.messages.attachments.get` call: the call
may throw, or return a response whose `data` field is optional. -/
inductive AttachGetOutcome where
  | throwErr
  | got (data : Option String)

/-- `GmailService.downloadAttachment`.  Returns the attachment data (or
`none`: every failure path is caught inside and returns `null`) paired
with whether a remote fetch was issued.  A part without a truthy
`body.attachmentId` or without a truthy `filename` returns `null`
before any remote call; a thrown fetch or a response without truthy
data is caught and yields `null`. -/
def downloadAttachment (outc : AttachGetOutcome) (part : GPart) :
    Option AttachmentData × Bool :=
  if !optStrTruthy (part.body.bind GBody.attachmentId) || !optStrTruthy part.filename then
    (none, false)
  else
    match outc with
    | .throwErr => (none, true)
    | .got dataOpt =>
      if optStrTruthy dataOpt = false then (none, true)
      else
        let buffer := b64Bytes (dataOpt.getD "")
        (some
          { fileName := part.filename.getD ""
            mimeType := orElseStr part.mimeType "application/octet-stream"
            data := buffer
            size := buffer.length }, true)

/-- The per-part loop of `GmailService.extractAttachments`: for each
flattened part classified as an attachment, one download is attempted
(the environment is indexed by its ordinal); `null` downloads are
skipped. -/
def extractLoop (attachGet : Nat → AttachGetOutcome) :
    Nat → List GPart → List AttachmentData
  | _, [] => []
  | k, p :: rest =>
    if isAttachment p then
      match (downloadAttachment (attachGet k) p).1 with
      | some a => a :: extractLoop attachGet (k + 1) rest
      | none => extractLoop attachGet (k + 1) rest
    else extractLoop attachGet k rest

/-- A fetched Gmail message (`Schema$Message`, the fields the pipeline
reads). -/
structure GMessage where
  id : Option String
  threadId : Option String
  internalDate : Option Int
  payload : Option GPart

/-- `GmailService.extractAttachments`: flatten the payload's part tree
and download every part classified as an attachment. -/
def extractAttachments (attachGet : Nat → AttachGetOutcome) (msg : GMessage) :
    List AttachmentData :=
  match msg.payload with
  | none => []
  | some payload => extractLoop attachGet 0 (extractParts payload)

/-- `GmailService.storeAttachmentMetadata`: look the owning email up by
provider message identifier; when absent, log and do nothing; when
present, create one `Attachment` row linked by the email's primary
key. -/
def storeAttachmentMetadata (store : Store) (emailMessageId : String)
    (uploadResult : DriveUploadResult) : Store :=
  match findEmail store emailMessageId with
  | none => store
  | some e =>
    { store with
      attachments := store.attachments ++
        [{ emailId := e.recId
           fileName := uploadResult.fileName
           mimeType := uploadResult.mimeType
           driveLink := uploadResult.webViewLink }] }

/-- Outcome of one `gmail.users.messages.get` fetch. -/
inductive FetchOutcome where
  | throwErr
  | got (msg : GMessage)

/-- Environment of one `processMessage` run: the message fetch outcome,
the clock, whether a concurrent ingester inserts the same message
between the existence check and the create, the `Token` rows visible to
`processAttachments`, whether its auth-client resolution succeeds, the
per-attachment download outcomes, and the Drive environment. -/
structure PMEnv where
  fetchMessage : FetchOutcome
  now : Int
  concurrentInsert : Bool
  tokensAtAttach : List TokenRec
  attachAuthOk : Bool
  attachGet : Nat → AttachGetOutcome
  drive : DriveEnv

/-- Case-insensitive header lookup of `processMessage`
(`getHeader`): first matching header wins, absent value becomes `""`. -/
def getHeaderVal (headers : List GHeader) (name : String) : String :=
  match headers.find? (fun h => (h.name.map String.toLower) = some name.toLower) with
  | some h => h.value.getD ""
  | none => ""

/-- The subject lookup of `processAttachments`:
`headers.find(...)?.value || 'No Subject'`. -/
def attachSubject (payload : GPart) : String :=
  match (payload.headers.getD []).find?
      (fun h => (h.name.map String.toLower) = some "subject") with
  | some h => orElseStr h.value "No Subject"
  | none => "No Subject"

/-- `GmailService.processAttachments`: extract and download attachments,
resolve a token (by user id when truthy, else the first row), get an
auth client (a throw is caught and ends the step), upload the batch,
and store one metadata row per successful upload.  All failure paths
are caught inside and leave the store's emails untouched. -/
def processAttachments (env : PMEnv) (msg : GMessage) (messageId : String)
    (userId : Option String) (store : Store) : Store :=
  match msg.payload with
  | none => store
  | some payload =>
    let attachments := extractLoop env.attachGet 0 (extractParts payload)
    if attachments.isEmpty then store
    else
      let userToken :=
        if optStrTruthy userId then env.tokensAtAttach.find? (fun t => t.userId = userId)
        else env.tokensAtAttach.head?
      match userToken with
      | none => store
      | some _ =>
        if !env.attachAuthOk then store
        else
          let subject := attachSubject payload
          let uploadResults := (uploadAttachments env.drive attachments (some subject)).1
          uploadResults.foldl (fun s r => storeAttachmentMetadata s messageId r) store

/-! ### Message ingestion pipeline (`GmailService.processMessage`) -/

/-- Outcome classification of one `processMessage` run, matching the
source's log paths. -/
inductive PMOutcome where
  | skippedExisting
  | noPayload
  | stored
  | duplicateSkip
  | failed
deriving DecidableEq

/-- Observable trace of one `processMessage` run: whether the remote
message fetch was issued, and which path finished the run. -/
structure PMTrace where
  fetched : Bool
  outcome : PMOutcome
deriving DecidableEq

/-- The catch block of `processMessage`: a caught error whose message
contains `Unique constraint` is logged as a duplicate skip, any other
caught error as a processing failure; neither propagates. -/
def pmCatch (errMsg : String) : PMOutcome :=
  if strIncludes errMsg "Unique constraint" then .duplicateSkip else .failed

/-- The body fold of `processMessage`: over the flattened parts, a part
with truthy base64 body data overwrites `bodyText` when its MIME type is
`text/plain` and `bodyHtml` when it is `text/html` (last write wins). -/
def bodiesOf (payload : GPart) : String × String :=
  (extractParts payload).foldl
    (fun bt part =>
      match part.body.bind GBody.data with
      | some d =>
        if d = "" then bt
        else
          let dec := decodeB64Utf8 d
          let bt1 := if part.mimeType = some "text/plain" then (dec, bt.2) else bt
          if part.mimeType = some "text/html" then (bt1.1, dec) else bt1
      | none => bt)
    ("", "")

/-- The `CreateEmailDto` assembled by `processMessage`, as an `Email`
row with the given primary key. -/
def emailDtoOf (env : PMEnv) (msg : GMessage) (payload : GPart)
    (userId : Option String) (recId : Nat) : EmailRec :=
  let hs := payload.headers.getD []
  { recId := recId
    messageId := msg.id.getD ""
    userId := userId
    threadId := msg.threadId.getD ""
    subject := getHeaderVal hs "Subject"
    sender := getHeaderVal hs "From"
    recipients := getHeaderVal hs "To"
    cc := getHeaderVal hs "Cc"
    bcc := getHeaderVal hs "Bcc"
    dateMs := (match msg.internalDate with
               | some n => if n = 0 then env.now else n
               | none => env.now)
    bodyText := (bodiesOf payload).1
    bodyHtml := (bodiesOf payload).2 }

/-- `GmailService.processMessage`.  Existence check by message
identifier before any remote fetch; fetch (a throw is caught at the
pipeline boundary); payload check; email create, where the store's
uniqueness constraint on `messageId` is the final authority — a
concurrent insert between the check and the create makes the create
throw `Unique constraint failed ...`, which the catch block treats as a
skip; then attachment processing. -/
def processMessage (env : PMEnv) (id : String) (userId : Option String)
    (store : Store) : Store × PMTrace :=
  match findEmail store id with
  | some _ => (store, ⟨false, .skippedExisting⟩)
  | none =>
    match env.fetchMessage with
    | .throwErr => (store, ⟨true, pmCatch "Failed to fetch message"⟩)
    | .got msg =>
      match msg.payload with
      | none => (store, ⟨true, .noPayload⟩)
      | some payload =>
        let store1 :=
          if env.concurrentInsert then
            insertEmail store (emailDtoOf env msg payload userId store.nextId)
          else store
        let dto := emailDtoOf env msg payload userId store1.nextId
        if (findEmail store1 dto.messageId).isSome then
          (store1, ⟨true, pmCatch "Unique constraint failed on the fields: messageId"⟩)
        else
          let store2 := insertEmail store1 dto
          let store3 := processAttachments env msg dto.messageId userId store2
          (store3, ⟨true, .stored⟩)

/-! ### Paginated backfill (`GmailService.getRecentMessages`) -/

/-- The do/while pagination loop of `getRecentMessages`.  The remote
mailbox is a list of message identifiers; each page request asks for
`min 50 (maxMessages - totalFetched)` results and receives that many
from the front of the remainder, with a next-page token exactly when
messages remain.  The loop breaks when the cap is reached, the token is
exhausted, or a page is empty. -/
def grmLoop (mailbox : List String) (maxMessages : Nat) (acc : List String) :
    List String :=
  let req := min 50 (maxMessages - acc.length)
  let page := mailbox.take req
  let rest := mailbox.drop req
  let acc2 := acc ++ page
  if maxMessages ≤ acc2.length ∨ rest = [] ∨ page = [] then acc2
  else grmLoop rest maxMessages acc2
termination_by mailbox.length
decreasing_by
  rename_i h
  push_neg at h
  have hp : ¬(min 50 (maxMessages - acc.length) = 0 ∨ mailbox = []) := by
    intro hc
    exact h.2.2 (List.take_eq_nil_iff.mpr hc)
  push_neg at hp
  have hlen : mailbox.length ≠ 0 := by
    intro hz
    exact hp.2 (List.eq_nil_of_length_eq_zero hz)
  simp only [List.length_drop]
  omega

/-- `GmailService.getRecentMessages`: the whole call is wrapped in a
try/catch that returns `[]` on any thrown page request (discarding
partial results). -/
def getRecentMessages (listOk : Bool) (mailbox : List String) (maxMessages : Nat) :
    List String :=
  if listOk then grmLoop mailbox maxMessages [] else []

/-! ### Sync cursor controller (`GmailService.fetchEmails`) -/

/-- Outcome of one `gmail.users.history.list` call: a thrown error (any
failure, in particular a stale cursor), or the listed message-added
identifiers plus the response's new history identifier. -/
inductive HistoryOutcome where
  | throwErr
  | got (ids : List String) (newHistoryId : Option String)

/-- Environment of one `fetchEmails` round: auth-client resolution,
history-listing outcome, full-listing outcome and mailbox contents,
watch-call outcome (`none` models `users.watch` throwing, `some h`
a response whose `historyId` field is `h`), and one `processMessage`
environment per candidate message. -/
structure FetchEnv where
  authOk : Bool
  history : HistoryOutcome
  listOk : Bool
  mailbox : List String
  watch : Option (Option String)
  msgEnv : Nat → PMEnv

/-- Observable trace of one `fetchEmails` round: the cap of a full
listing backfill when one was performed, whether the watch call was
issued, and the per-message traces in processing order. -/
structure FetchTrace where
  backfillCap : Option Nat
  watchCalled : Bool
  processed : List (String × PMTrace)
deriving DecidableEq

/-- The full-listing cap of the no-cursor branch:
`isInitialSync ? 2000 : 100`. -/
def backfillCap (isInitialSync : Bool) : Nat :=
  if isInitialSync then 2000 else 100

/-- The full-listing cap of the history-failure fallback:
`isInitialSync ? 1000 : 100`. -/
def historyFallbackCap (isInitialSync : Bool) : Nat :=
  if isInitialSync then 1000 else 100

/-- `GmailService.setupGmailWatch`: a thrown watch call is caught and
changes nothing; a response with a truthy `historyId` persists it on the
token row; a response without one changes nothing. -/
def setupGmailWatch (watch : Option (Option String)) (token : TokenRec) : TokenRec :=
  match watch with
  | none => token
  | some hid => if optStrTruthy hid then { token with historyId := hid } else token

/-- The sequential per-message loop of `fetchEmails`: each candidate
identifier is processed with its own environment; `processMessage`
returns normally on every input, so every identifier in the batch is
attempted.  Returns the final store and one trace entry per
identifier. -/
def processBatch (msgEnv : Nat → PMEnv) (userId : Option String) :
    Nat → List String → Store → Store × List (String × PMTrace)
  | _, [], store => (store, [])
  | i, id :: rest, store =>
    let r := processMessage (msgEnv i) id userId store
    let next := processBatch msgEnv userId (i + 1) rest r.1
    (next.1, (id, r.2) :: next.2)

/-- The `token.userId ? String(token.userId) : undefined` argument of
the per-message calls. -/
def userIdArg (token : TokenRec) : Option String :=
  if optStrTruthy token.userId then token.userId else none

/-- `GmailService.fetchEmails`.  With a truthy stored cursor and no
initial-sync flag: list history since the cursor; on success persist the
response's truthy new cursor; on a thrown history call fall back to a
capped full listing without touching the cursor.  Otherwise: capped
full-listing backfill, and — only for an explicit initial sync — a
watch registration whose returned cursor is persisted.  Then process
every candidate message.  The outer catch halts the round on an auth
failure. -/
def fetchEmails (env : FetchEnv) (token : TokenRec) (isInitialSync : Bool)
    (store : Store) : Store × TokenRec × FetchTrace :=
  if !env.authOk then (store, token, ⟨none, false, []⟩)
  else if optStrTruthy token.historyId && !isInitialSync then
    match env.history with
    | .got ids newHid =>
      let token2 := if optStrTruthy newHid then { token with historyId := newHid } else token
      let pb := processBatch env.msgEnv (userIdArg token) 0 ids store
      (pb.1, token2, ⟨none, false, pb.2⟩)
    | .throwErr =>
      let cap := historyFallbackCap isInitialSync
      let ids := getRecentMessages env.listOk env.mailbox cap
      let pb := processBatch env.msgEnv (userIdArg token) 0 ids store
      (pb.1, token, ⟨some cap, false, pb.2⟩)
  else
    let cap := backfillCap isInitialSync
    let ids := getRecentMessages env.listOk env.mailbox cap
    let token2 := if isInitialSync then setupGmailWatch env.watch token else token
    let pb := processBatch env.msgEnv (userIdArg token) 0 ids store
    (pb.1, token2, ⟨some cap, isInitialSync, pb.2⟩)

/-! ## Helper lemmas -/

theorem attach_flatMap_eq {α β : Type} (l : List α) (f : α → List β) :
    l.attach.flatMap (fun x => f x.1) = l.flatMap f := by
  rw [List.flatMap_def, List.flatMap_def, List.attach_map_val]

theorem extractParts_leaf (a b c d : _) :
    extractParts (.mk a b c d none) = [.mk a b c d none] := by
  simp [extractParts]

theorem extractParts_node (a b c d : _) (subs : List GPart) :
    extractParts (.mk a b c d (some subs)) = subs.flatMap extractParts := by
  rw [extractParts]
  exact attach_flatMap_eq subs extractParts

theorem preorder_leaf (a b c d : _) :
    preorder (.mk a b c d none) = [.mk a b c d none] := by
  simp [preorder]

theorem preorder_node (a b c d : _) (subs : List GPart) :
    preorder (.mk a b c d (some subs)) = .mk a b c d (some subs) :: subs.flatMap preorder := by
  rw [preorder]
  rw [List.flatMap_def, List.flatMap_def, List.attach_map_val]

/-! ## C3 — attachment classifier priority rules -/

/-- C3.  For every leaf part the classifier's verdict is exactly the
disjunction of the three rules of the spec, evaluated in the source's
priority order: a provider attachment-content reference (rule 1), a
content-disposition header whose value contains `attachment` (rule 2),
or a truthy filename with a positive declared byte size (rule 3); with
none of the three signals the part is inline.  Since each matching rule
returns `true`, first-match evaluation coincides with the disjunction,
so the part with a content reference is an attachment regardless of the
other signals, the part with only filename+positive size is an
attachment, and the part with no signal is inline. -/
theorem c3_classifier_rules (part : GPart) :
    isAttachment part = (ruleContentRef part || ruleDisposition part || ruleFilenameSize part)
    ∧ (ruleContentRef part = true → isAttachment part = true)
    ∧ (ruleContentRef part = false → ruleDisposition part = false →
        ruleFilenameSize part = true → isAttachment part = true)
    ∧ (ruleContentRef part = false → ruleDisposition part = false →
        ruleFilenameSize part = false → isAttachment part = false) := by
  have hchar : isAttachment part
      = (ruleContentRef part || ruleDisposition part || ruleFilenameSize part) := by
    unfold isAttachment ruleContentRef ruleDisposition ruleFilenameSize
    cases h1 : optStrTruthy (part.body.bind GBody.attachmentId) <;>
      cases h2 : dispositionMarksAttachment part.headers <;>
        simp [h1, h2]
  refine ⟨hchar, ?_, ?_, ?_⟩
  · intro h1
    rw [hchar, h1]
    rfl
  · intro h1 h2 h3
    rw [hchar, h1, h2, h3]
    rfl
  · intro h1 h2 h3
    rw [hchar, h1, h2, h3]
    rfl

/-- C3 witness: a part carrying a content reference together with an
`inline` disposition and no filename is an attachment (rule 1 wins); a
part with only a filename and positive size is an attachment (rule 3);
a part with none of the three signals is inline. -/
theorem c3_witness :
    isAttachment (.mk none none
      (some [⟨some "Content-Disposition", some "inline"⟩])
      (some ⟨some "ref1", none, none⟩) none) = true
    ∧ isAttachment (.mk none (some "a.pdf") none (some ⟨none, some 9, none⟩) none) = true
    ∧ isAttachment (.mk (some "text/plain") none none (some ⟨none, some 9, none⟩) none)
        = false := by
  refine ⟨?_, ?_, ?_⟩
  · exact (c3_classifier_rules (.mk none none
      (some [⟨some "Content-Disposition", some "inline"⟩])
      (some ⟨some "ref1", none, none⟩) none)).2.1 (by decide)
  · exact (c3_classifier_rules (.mk none (some "a.pdf") none
      (some ⟨none, some 9, none⟩) none)).2.2.1 (by decide) (by decide) (by decide)
  · exact (c3_classifier_rules (.mk (some "text/plain") none none
      (some ⟨none, some 9, none⟩) none)).2.2.2 (by decide) (by decide) (by decide)

/-! ## C4 — part-tree flattener -/

/-- C4 (amended).  The flattener returns, in depth-first left-to-right
order, exactly those parts of the tree whose `parts` field is absent:
`extractParts` equals the preorder traversal filtered to parts with no
child-list field. -/
theorem c4_extractParts_dfs (part : GPart) :
    extractParts part = (preorder part).filter (fun q => q.parts.isNone) := by
  induction part using extractParts.induct with
  | case1 a b c d subs ih =>
    rw [extractParts_node, preorder_node]
    simp only [List.filter_cons]
    have hch : (GPart.parts (.mk a b c d (some subs))).isNone = false := rfl
    rw [hch]
    simp only [Bool.false_eq_true, if_false]
    rw [List.filter_flatMap]
    exact List.flatMap_congr (fun x hx => ih ⟨x, hx⟩)
  | case2 p h =>
    cases p with
    | mk a b c d cs =>
      cases cs with
      | some subs => exact absurd rfl (h a b c d subs)
      | none =>
        rw [extractParts_leaf, preorder_leaf]
        simp [GPart.parts, List.filter]

/-- C4 counterexample.  The claim says a zero-depth input — a part with
no children — yields exactly that part itself.  A part whose `parts`
field is a present-but-empty array has no children, yet `extractParts`
returns the empty list, because the source tests `if (part.parts)`,
which is truthy for an empty array. -/
theorem c4_counterexample_empty_children :
    extractParts (.mk none none none none (some [])) = []
    ∧ (GPart.parts (.mk none none none none (some []))).getD [] = []
    ∧ extractParts (.mk none none none none (some [])) ≠ [.mk none none none none (some [])] := by
  refine ⟨?_, rfl, ?_⟩
  · rw [extractParts_node]
    rfl
  · rw [extractParts_node]
    intro hc
    simp at hc

/-! ## C9 — capped, terminating backfill pagination -/

theorem list_take_split {α : Type} :
    ∀ (l : List α) (req b : Nat), req ≤ b →
      l.take b = l.take req ++ (l.drop req).take (b - req)
  | _, 0, _, _ => by simp
  | [], _ + 1, _, _ => by simp
  | x :: xs, req + 1, b, h => by
    obtain ⟨b2, rfl⟩ : ∃ b2, b = b2 + 1 := ⟨b - 1, by omega⟩
    simp only [List.take_succ_cons, List.drop_succ_cons, Nat.succ_sub_succ, List.cons_append]
    rw [list_take_split xs req b2 (by omega)]

theorem grmLoop_eq (mailbox : List String) (maxM : Nat) (acc : List String) :
    grmLoop mailbox maxM acc =
      if maxM ≤ (acc ++ mailbox.take (min 50 (maxM - acc.length))).length
          ∨ mailbox.drop (min 50 (maxM - acc.length)) = []
          ∨ mailbox.take (min 50 (maxM - acc.length)) = [] then
        acc ++ mailbox.take (min 50 (maxM - acc.length))
      else
        grmLoop (mailbox.drop (min 50 (maxM - acc.length))) maxM
          (acc ++ mailbox.take (min 50 (maxM - acc.length))) := by
  rw [grmLoop]

theorem grmLoop_take : ∀ (n : Nat) (mailbox : List String), mailbox.length = n →
    ∀ (acc : List String) (maxM : Nat), acc.length ≤ maxM →
      grmLoop mailbox maxM acc = acc ++ mailbox.take (maxM - acc.length) := by
  intro n
  induction n using Nat.strong_induction_on with
  | _ n ih =>
    intro mailbox hn acc maxM hacc
    rw [grmLoop_eq]
    by_cases hcond : maxM ≤ (acc ++ mailbox.take (min 50 (maxM - acc.length))).length
        ∨ mailbox.drop (min 50 (maxM - acc.length)) = []
        ∨ mailbox.take (min 50 (maxM - acc.length)) = []
    · rw [if_pos hcond]
      have hreq : min 50 (maxM - acc.length) ≤ maxM - acc.length := Nat.min_le_right _ _
      rcases hcond with hfull | hrest | hpage
      · -- cap reached: the page is exactly the remaining budget
        have hlen : (mailbox.take (min 50 (maxM - acc.length))).length
            = min (min 50 (maxM - acc.length)) mailbox.length := List.length_take ..
        have hlen2 : (mailbox.take (min 50 (maxM - acc.length))).length
            = maxM - acc.length := by
          simp only [List.length_append] at hfull
          omega
        congr 1
        have : min 50 (maxM - acc.length) = maxM - acc.length := by omega
        rw [this]
      · -- next-page token exhausted: the mailbox fits in the page
        have hmb : mailbox.length ≤ min 50 (maxM - acc.length) := by
          have := List.length_drop (min 50 (maxM - acc.length)) mailbox
          rw [hrest] at this
          simp only [List.length_nil] at this
          omega
        congr 1
        rw [List.take_of_length_le hmb, List.take_of_length_le (by omega)]
      · -- empty page
        rcases List.take_eq_nil_iff.mp hpage with hz | hmb
        · have hb : maxM - acc.length = 0 := by omega
          rw [hpage, hb]
          simp
        · subst hmb
          simp [hpage]
    · rw [if_neg hcond]
      push_neg at hcond
      obtain ⟨hfull, hrest, hpage⟩ := hcond
      have hne : ¬(min 50 (maxM - acc.length) = 0 ∨ mailbox = []) := by
        intro hc
        exact hpage (List.take_eq_nil_iff.mpr hc)
      push_neg at hne
      have hmb : min 50 (maxM - acc.length) < mailbox.length := by
        by_contra hc
        push_neg at hc
        exact hrest (List.drop_eq_nil_of_le hc)
      have hplen : (mailbox.take (min 50 (maxM - acc.length))).length
          = min 50 (maxM - acc.length) := by
        have := List.length_take (min 50 (maxM - acc.length)) mailbox
        omega
      have hacc2 : (acc ++ mailbox.take (min 50 (maxM - acc.length))).length ≤ maxM := by
        simp only [List.length_append] at hfull ⊢
        omega
      have hdl : (mailbox.drop (min 50 (maxM - acc.length))).length < n := by
        have := List.length_drop (min 50 (maxM - acc.length)) mailbox
        omega
      rw [ih _ hdl _ rfl _ _ hacc2]
      rw [List.append_assoc]
      congr 1
      have hb2 : maxM - (acc ++ mailbox.take (min 50 (maxM - acc.length))).length
          = (maxM - acc.length) - min 50 (maxM - acc.length) := by
        simp only [List.length_append]
        omega
      rw [hb2]
      exact (list_take_split mailbox (min 50 (maxM - acc.length)) (maxM - acc.length)
        (Nat.min_le_right _ _)).symm

/-- C9.  The paginated backfill loop is a total function (termination is
by the strictly shrinking remainder of the mailbox) that returns exactly
the first `maxMessages` available identifiers — in particular at most
`maxMessages` of them for every cap and every remote outcome, the thrown
listing included — and both cap sites of `fetchEmails` use a strictly
larger cap for an explicit initial sync than for a routine run
(2000 vs 100 in the no-cursor branch, 1000 vs 100 in the
history-fallback branch). -/
theorem c9_backfill_cap (mailbox : List String) (maxMessages : Nat) (listOk : Bool) :
    getRecentMessages true mailbox maxMessages = mailbox.take maxMessages
    ∧ (getRecentMessages listOk mailbox maxMessages).length ≤ maxMessages
    ∧ backfillCap false < backfillCap true
    ∧ historyFallbackCap false < historyFallbackCap true := by
  have hmain : getRecentMessages true mailbox maxMessages = mailbox.take maxMessages := by
    unfold getRecentMessages
    rw [if_pos rfl]
    have := grmLoop_take mailbox.length mailbox rfl [] maxMessages (by simp)
    simpa using this
  refine ⟨hmain, ?_, by decide, by decide⟩
  cases listOk with
  | true =>
    rw [hmain]
    have := List.length_take maxMessages mailbox
    omega
  | false => simp [getRecentMessages]

/-! ## C10 — download pre-conditions -/

theorem downloadAttachment_some (outc : AttachGetOutcome) (part : GPart)
    (a : AttachmentData) (ha : (downloadAttachment outc part).1 = some a) :
    optStrTruthy (part.body.bind GBody.attachmentId) = true
    ∧ optStrTruthy part.filename = true
    ∧ a.fileName = part.filename.getD "" := by
  by_cases hc : (!optStrTruthy (part.body.bind GBody.attachmentId)
      || !optStrTruthy part.filename) = true
  · rw [downloadAttachment.eq_def, if_pos hc] at ha
    simp at ha
  · have hids : optStrTruthy (part.body.bind GBody.attachmentId) = true
        ∧ optStrTruthy part.filename = true := by
      constructor <;> (revert hc; cases optStrTruthy (part.body.bind GBody.attachmentId) <;>
        cases optStrTruthy part.filename <;> simp)
    refine ⟨hids.1, hids.2, ?_⟩
    rw [downloadAttachment.eq_def, if_neg hc] at ha
    cases outc with
    | throwErr => simp at ha
    | got dataOpt =>
      dsimp only at ha
      by_cases hd : optStrTruthy dataOpt = false
      · rw [if_pos hd] at ha
        simp at ha
      · rw [if_neg hd] at ha
        simp only [Option.some.injEq] at ha
        rw [← ha]

theorem extractLoop_mem (attachGet : Nat → AttachGetOutcome) :
    ∀ (k : Nat) (parts : List GPart) (a : AttachmentData),
      a ∈ extractLoop attachGet k parts →
      ∃ p, p ∈ parts ∧ isAttachment p = true
        ∧ optStrTruthy (p.body.bind GBody.attachmentId) = true
        ∧ optStrTruthy p.filename = true
        ∧ a.fileName = p.filename.getD "" := by
  intro k parts
  induction parts generalizing k with
  | nil => intro a ha; simp [extractLoop] at ha
  | cons p rest ih =>
    intro a ha
    rw [extractLoop] at ha
    by_cases hatt : isAttachment p
    · rw [if_pos hatt] at ha
      cases hdp : (downloadAttachment (attachGet k) p).1 with
      | some a0 =>
        rw [hdp] at ha
        rcases List.mem_cons.mp ha with rfl | hmem
        · obtain ⟨h1, h2, h3⟩ := downloadAttachment_some (attachGet k) p a hdp
          exact ⟨p, List.mem_cons_self .., hatt, h1, h2, h3⟩
        · obtain ⟨q, hq, hrest⟩ := ih (k + 1) a hmem
          exact ⟨q, List.mem_cons_of_mem _ hq, hrest⟩
      | none =>
        rw [hdp] at ha
        obtain ⟨q, hq, hrest⟩ := ih (k + 1) a ha
        exact ⟨q, List.mem_cons_of_mem _ hq, hrest⟩
    · rw [if_neg hatt] at ha
      obtain ⟨q, hq, hrest⟩ := ih k a ha
      exact ⟨q, List.mem_cons_of_mem _ hq, hrest⟩

/-- C10.  A part lacking a truthy attachment-content reference or a
truthy filename makes `downloadAttachment` return `null` without
issuing the remote fetch — in particular parts classified as
attachments only by disposition or by the filename+size heuristic
without a content reference yield no data; a successful download
requires both fields; and every element of the extraction loop's output
comes from a part that was classified as an attachment and carried both
a truthy content reference and a truthy filename. -/
theorem c10_download_requires_ref_and_name (outc : AttachGetOutcome) (part : GPart) :
    (optStrTruthy (part.body.bind GBody.attachmentId) = false
        ∨ optStrTruthy part.filename = false →
      downloadAttachment outc part = (none, false))
    ∧ (∀ a, (downloadAttachment outc part).1 = some a →
        optStrTruthy (part.body.bind GBody.attachmentId) = true
        ∧ optStrTruthy part.filename = true)
    ∧ (∀ (attachGet : Nat → AttachGetOutcome) (k : Nat) (parts : List GPart)
        (a : AttachmentData),
        a ∈ extractLoop attachGet k parts →
        ∃ p, p ∈ parts ∧ isAttachment p = true
          ∧ optStrTruthy (p.body.bind GBody.attachmentId) = true
          ∧ optStrTruthy p.filename = true) := by
  refine ⟨?_, ?_, ?_⟩
  · intro h
    have hc : (!optStrTruthy (part.body.bind GBody.attachmentId)
        || !optStrTruthy part.filename) = true := by
      rcases h with h | h <;> simp [h]
    rw [downloadAttachment.eq_def, if_pos hc]
  · intro a ha
    obtain ⟨h1, h2, _⟩ := downloadAttachment_some outc part a ha
    exact ⟨h1, h2⟩
  · intro attachGet k parts a ha
    obtain ⟨p, hp, hrest⟩ := extractLoop_mem attachGet k parts a ha
    exact ⟨p, hp, hrest.1, hrest.2.1, hrest.2.2.1⟩

/-- C10 witness: a concrete part classified as an attachment by the
filename+size heuristic but carrying no content reference is not
fetched and yields no data, even though attachment bytes would be
available remotely. -/
theorem c10_witness :
    isAttachment (.mk (some "image/png") (some "x.png") none
      (some ⟨none, some 5, none⟩) none) = true
    ∧ downloadAttachment (.got (some "QUJD"))
        (.mk (some "image/png") (some "x.png") none (some ⟨none, some 5, none⟩) none)
      = (none, false) := by
  constructor
  · decide
  · exact (c10_download_requires_ref_and_name (.got (some "QUJD"))
      (.mk (some "image/png") (some "x.png") none (some ⟨none, some 5, none⟩) none)).1
      (Or.inl (by decide))

/-! ## C2 — attachment records only for successful uploads -/

theorem uploadLoop_eq (env : DriveEnv) (target : String) :
    ∀ (i : Nat) (atts : List AttachmentData),
      (uploadLoop env target i atts).1
        = (atts.enumFrom i).filterMap
            (fun ia => uploadFile ia.2 (some target) (env.upload ia.1))
      ∧ (uploadLoop env target i atts).2 = atts.map (fun a => (a.fileName, target)) := by
  intro i atts
  induction atts generalizing i with
  | nil => simp [uploadLoop]
  | cons a rest ih =>
    rw [uploadLoop]
    simp only [List.enumFrom_cons, List.filterMap_cons, List.map_cons]
    cases hu : uploadFile a (some target) (env.upload i) with
    | some r => simp [hu, (ih (i + 1)).1, (ih (i + 1)).2]
    | none => simp [hu, (ih (i + 1)).1, (ih (i + 1)).2]

theorem storeAttachmentMetadata_emails (store : Store) (mid : String)
    (r : DriveUploadResult) :
    (storeAttachmentMetadata store mid r).emails = store.emails := by
  unfold storeAttachmentMetadata
  cases findEmail store mid <;> rfl

theorem foldStore_emails (results : List DriveUploadResult) (mid : String) :
    ∀ (store : Store),
      (results.foldl (fun s r => storeAttachmentMetadata s mid r) store).emails
        = store.emails := by
  induction results with
  | nil => intro store; rfl
  | cons r rest ih =>
    intro store
    simp only [List.foldl_cons]
    rw [ih, storeAttachmentMetadata_emails]

theorem findEmail_store_invariant (store : Store) (mid mid2 : String)
    (r : DriveUploadResult) :
    findEmail (storeAttachmentMetadata store mid r) mid2 = findEmail store mid2 := by
  unfold findEmail
  rw [show (storeAttachmentMetadata store mid r).emails = store.emails from
    storeAttachmentMetadata_emails store mid r]

theorem storeAttachmentMetadata_count (store : Store) (mid : String)
    (r : DriveUploadResult) (h : (findEmail store mid).isSome = true) :
    (storeAttachmentMetadata store mid r).attachments.length
      = store.attachments.length + 1 := by
  unfold storeAttachmentMetadata
  cases he : findEmail store mid with
  | none => rw [he] at h; simp at h
  | some e => simp

theorem uploadAttachments_eq (env : DriveEnv) (atts : List AttachmentData)
    (subj : Option String) (root : String) (hroot : env.rootFolder = some root)
    (hne : atts ≠ []) :
    uploadAttachments env atts subj
      = ((uploadLoop env (uploadTargetOf env atts.length subj root) 0 atts).1,
         ⟨(uploadLoop env (uploadTargetOf env atts.length subj root) 0 atts).2,
          subfolderCalls atts.length subj⟩) := by
  unfold uploadAttachments
  rw [if_neg (by simpa using hne), hroot]

theorem foldStore_count (results : List DriveUploadResult) (mid : String) :
    ∀ (store : Store), (findEmail store mid).isSome = true →
      (results.foldl (fun s r => storeAttachmentMetadata s mid r) store).attachments.length
        = store.attachments.length + results.length := by
  induction results with
  | nil => intro store _; rfl
  | cons r rest ih =>
    intro store h
    simp only [List.foldl_cons, List.length_cons]
    rw [ih (storeAttachmentMetadata store mid r)
      (by rw [findEmail_store_invariant]; exact h)]
    rw [storeAttachmentMetadata_count store mid r h]
    omega

/-- C2.  In a non-empty one-message batch with a resolvable root folder:
the upload results are exactly the successful uploads (one `uploadFile`
success per result, failures are skipped), every attachment in the batch
is attempted regardless of earlier failures, folding the results into
the store through `storeAttachmentMetadata` never touches the `Email`
rows, and — when the owning message row exists — it creates exactly one
`Attachment` row per successful upload, so no record ever corresponds
to a failed upload. -/
theorem c2_records_iff_successful_uploads (env : DriveEnv) (atts : List AttachmentData)
    (subj : Option String) (root : String) (store : Store) (mid : String)
    (hroot : env.rootFolder = some root) (hne : atts ≠ []) :
    (uploadAttachments env atts subj).1
      = (atts.enumFrom 0).filterMap
          (fun ia => uploadFile ia.2 (some (uploadTargetOf env atts.length subj root))
            (env.upload ia.1))
    ∧ (uploadAttachments env atts subj).2.attempts
      = atts.map (fun a => (a.fileName, uploadTargetOf env atts.length subj root))
    ∧ ((uploadAttachments env atts subj).1.foldl
        (fun s r => storeAttachmentMetadata s mid r) store).emails = store.emails
    ∧ ((findEmail store mid).isSome = true →
        ((uploadAttachments env atts subj).1.foldl
          (fun s r => storeAttachmentMetadata s mid r) store).attachments.length
          = store.attachments.length + (uploadAttachments env atts subj).1.length) := by
  rw [uploadAttachments_eq env atts subj root hroot hne]
  refine ⟨(uploadLoop_eq env _ 0 atts).1, (uploadLoop_eq env _ 0 atts).2, ?_, ?_⟩
  · exact foldStore_emails _ mid store
  · intro h
    exact foldStore_count _ mid store h

/-- Concrete Drive environment for the C2 witness: the first upload
throws, the second succeeds. -/
def c2wEnv : DriveEnv :=
  ⟨some "ROOT", .created (some "SUB"),
   fun i => if i = 0 then .throwErr
            else .resp ⟨some "fileX", none, none, none, some "linkX", none⟩ true⟩

/-- Concrete two-attachment batch for the C2 witness. -/
def c2wAtts : List AttachmentData :=
  [⟨"a.txt", "text/plain", [65], 1⟩, ⟨"b.txt", "text/plain", [66], 1⟩]

/-- Concrete store holding the owning message row for the C2 witness. -/
def c2wStore : Store :=
  ⟨1, [⟨0, "m1", none, "t", "s", "f", "r", "", "", 0, "", ""⟩], []⟩

/-- C2 witness: with the first of two uploads failing, both are
attempted, exactly one result comes back, exactly one attachment row is
created, and the email rows are untouched. -/
theorem c2_witness :
    ((uploadAttachments c2wEnv c2wAtts (some "S")).1.foldl
        (fun s r => storeAttachmentMetadata s "m1" r) c2wStore).attachments.length
      = c2wStore.attachments.length + (uploadAttachments c2wEnv c2wAtts (some "S")).1.length
    ∧ ((uploadAttachments c2wEnv c2wAtts (some "S")).1.foldl
        (fun s r => storeAttachmentMetadata s "m1" r) c2wStore).emails = c2wStore.emails
    ∧ (uploadAttachments c2wEnv c2wAtts (some "S")).1.length = 1
    ∧ (uploadAttachments c2wEnv c2wAtts (some "S")).2.attempts.length = 2 := by
  obtain ⟨h1, h2, h3, h4⟩ :=
    c2_records_iff_successful_uploads c2wEnv c2wAtts (some "S") "ROOT" c2wStore "m1"
      rfl (by decide)
  exact ⟨h4 (by decide), h3, by decide, by decide⟩

/-! ## C5 — folder organization policy -/

/-- C5.  For a non-empty batch with a resolvable root folder and a
truthy subject: a single attachment goes to the root folder with no
subfolder create call; more than one attachment issues exactly one
subfolder create call named from the sanitized subject (every call
creates a new subfolder — nothing deduplicates against existing
folders), and when that creation returns a truthy folder id every
upload of the batch targets that one subfolder. -/
theorem c5_folder_policy (env : DriveEnv) (atts : List AttachmentData) (s root : String)
    (hroot : env.rootFolder = some root) (hs : s ≠ "") :
    (atts.length = 1 →
      (uploadAttachments env atts (some s)).2.createCalls = []
      ∧ ∀ pr ∈ (uploadAttachments env atts (some s)).2.attempts, pr.2 = root)
    ∧ (1 < atts.length →
      (uploadAttachments env atts (some s)).2.createCalls = [sanitizeFolderName s]
      ∧ ∀ f, env.subfolder = .created (some f) → f ≠ "" →
          ∀ pr ∈ (uploadAttachments env atts (some s)).2.attempts, pr.2 = f) := by
  constructor
  · intro hlen
    have hne : atts ≠ [] := by
      cases atts with
      | nil => simp at hlen
      | cons a rest => simp
    have hsub : subjectForSubfolder atts.length (some s) = none := by
      simp only [subjectForSubfolder]
      rw [if_neg (fun hc => absurd hc.1 (by omega))]
    have htarget : uploadTargetOf env atts.length (some s) root = root := by
      simp only [uploadTargetOf, hsub]
    have hcalls : subfolderCalls atts.length (some s) = [] := by
      simp only [subfolderCalls, hsub]
    rw [uploadAttachments_eq env atts (some s) root hroot hne, htarget]
    refine ⟨hcalls, ?_⟩
    intro pr hpr
    rw [(uploadLoop_eq env root 0 atts).2] at hpr
    obtain ⟨a, _, rfl⟩ := List.mem_map.mp hpr
    rfl
  · intro hlen
    have hne : atts ≠ [] := by
      cases atts with
      | nil => simp at hlen
      | cons a rest => simp
    have hsub : subjectForSubfolder atts.length (some s) = some s := by
      simp only [subjectForSubfolder]
      rw [if_pos ⟨hlen, hs⟩]
    have hcalls : subfolderCalls atts.length (some s) = [sanitizeFolderName s] := by
      simp only [subfolderCalls, hsub]
    rw [uploadAttachments_eq env atts (some s) root hroot hne]
    refine ⟨hcalls, ?_⟩
    intro f hf hfne pr hpr
    have htarget : uploadTargetOf env atts.length (some s) root = f := by
      simp only [uploadTargetOf, hsub, hf, createEmailFolder, orElseStr]
      rw [if_neg hfne]
    rw [(uploadLoop_eq env _ 0 atts).2] at hpr
    obtain ⟨a, _, rfl⟩ := List.mem_map.mp hpr
    exact htarget

/-- C5 witness: a two-attachment batch with subject
`My: Report?` creates exactly one subfolder named `My Report` and both
uploads target it; a one-attachment batch creates none and targets the
root folder. -/
theorem c5_witness :
    (uploadAttachments c2wEnv c2wAtts (some "My: Report?")).2.createCalls = ["My Report"]
    ∧ (∀ pr ∈ (uploadAttachments c2wEnv c2wAtts (some "My: Report?")).2.attempts,
        pr.2 = "SUB")
    ∧ (uploadAttachments c2wEnv [⟨"a.txt", "text/plain", [65], 1⟩]
        (some "My: Report?")).2.createCalls = []
    ∧ (∀ pr ∈ (uploadAttachments c2wEnv [⟨"a.txt", "text/plain", [65], 1⟩]
        (some "My: Report?")).2.attempts, pr.2 = "ROOT") := by
  obtain ⟨hone, hmany⟩ :=
    c5_folder_policy c2wEnv c2wAtts "My: Report?" "ROOT" rfl (by decide)
  obtain ⟨hone1, hmany1⟩ :=
    c5_folder_policy c2wEnv [⟨"a.txt", "text/plain", [65], 1⟩] "My: Report?" "ROOT"
      rfl (by decide)
  obtain ⟨hcalls, htargets⟩ := hmany (by decide)
  refine ⟨?_, htargets "SUB" rfl (by decide), (hone1 (by decide)).1, (hone1 (by decide)).2⟩
  rw [hcalls]
  decide

/-! ## C1 — idempotent ingestion -/

theorem emailCount_zero_findEmail (store : Store) (m : String)
    (h : emailCount store m = 0) : findEmail store m = none := by
  unfold emailCount at h
  unfold findEmail
  rw [List.find?_eq_none]
  intro x hx hpx
  have hmem : x ∈ store.emails.filter (fun e => decide (e.messageId = m)) :=
    List.mem_filter.mpr ⟨hx, hpx⟩
  rw [List.length_eq_zero] at h
  rw [h] at hmem
  simp at hmem

theorem findEmail_insert_self (store : Store) (e : EmailRec)
    (h : findEmail store e.messageId = none) :
    findEmail (insertEmail store e) e.messageId = some e := by
  unfold findEmail at h ⊢
  unfold insertEmail
  rw [List.find?_append, h]
  simp

theorem emailCount_insert (store : Store) (e : EmailRec) (m : String) :
    emailCount (insertEmail store e) m
      = emailCount store m + (if e.messageId = m then 1 else 0) := by
  unfold emailCount insertEmail
  simp only [List.filter_append, List.length_append]
  by_cases h : e.messageId = m <;> simp [h]

/-- C1.  The ingestion pipeline is idempotent per message identifier.
(1) For an identifier already present in the store, `processMessage`
returns with the store unchanged and without issuing the remote fetch —
so a second sequential ingestion of the same identifier changes
nothing.  (2) When the pre-check passes but a concurrent ingester
inserts the same message before the local create, the uniqueness
constraint rejects the local create; the resulting `Unique constraint`
error is caught and classified as a duplicate skip, not surfaced as a
failure, leaving exactly one `Email` row for the identifier and the
`Attachment` rows untouched. -/
theorem c1_idempotent_ingestion (env : PMEnv) (id : String) (uid : Option String)
    (store : Store) :
    ((findEmail store id).isSome = true →
      processMessage env id uid store = (store, ⟨false, .skippedExisting⟩))
    ∧ (∀ msg payload, env.fetchMessage = .got msg → msg.payload = some payload →
        env.concurrentInsert = true →
        findEmail store id = none →
        emailCount store (msg.id.getD "") = 0 →
        emailCount (processMessage env id uid store).1 (msg.id.getD "") = 1
        ∧ (processMessage env id uid store).2 = ⟨true, .duplicateSkip⟩
        ∧ (processMessage env id uid store).1.attachments = store.attachments) := by
  constructor
  · intro h
    cases hfe : findEmail store id with
    | none => rw [hfe] at h; simp at h
    | some e => simp only [processMessage, hfe]
  · intro msg payload hfetch hpay hconc hfe hcount
    have hm : (emailDtoOf env msg payload uid store.nextId).messageId
        = msg.id.getD "" := rfl
    have hfind : findEmail (insertEmail store (emailDtoOf env msg payload uid store.nextId))
        (msg.id.getD "")
        = some (emailDtoOf env msg payload uid store.nextId) := by
      rw [← hm]
      apply findEmail_insert_self
      rw [hm]
      exact emailCount_zero_findEmail store _ hcount
    have hred : processMessage env id uid store
        = (insertEmail store (emailDtoOf env msg payload uid store.nextId),
           ⟨true, pmCatch "Unique constraint failed on the fields: messageId"⟩) := by
      simp only [processMessage, hfe, hfetch, hpay, hconc, if_true]
      rw [show (emailDtoOf env msg payload uid
          (insertEmail store (emailDtoOf env msg payload uid store.nextId)).nextId).messageId
          = msg.id.getD "" from rfl]
      rw [hfind]
      simp
    rw [hred]
    refine ⟨?_, ?_, rfl⟩
    · rw [emailCount_insert, hm, if_pos rfl, hcount]
    · show (⟨true, pmCatch "Unique constraint failed on the fields: messageId"⟩ : PMTrace)
        = ⟨true, .duplicateSkip⟩
      have : pmCatch "Unique constraint failed on the fields: messageId"
          = .duplicateSkip := by decide
      rw [this]

/-- Concrete message for the C1 witness. -/
def c1wMsg : GMessage :=
  ⟨some "m2", some "t2", some 5, some (.mk none none none none none)⟩

/-- Concrete environment for the C1 witness: successful fetch of
`c1wMsg` with a concurrent insert racing the create. -/
def c1wEnv : PMEnv :=
  ⟨.got c1wMsg, 0, true, [], true, fun _ => .throwErr,
   ⟨some "ROOT", .created none, fun _ => .throwErr⟩⟩

/-- Concrete store already holding message `m1` for the C1 witness. -/
def c1wStore : Store :=
  ⟨1, [⟨0, "m1", none, "t", "s", "se", "r", "c", "b", 0, "", ""⟩], []⟩

/-- C1 witness: ingesting the already-stored `m1` is a fetch-free no-op,
and ingesting fresh `m2` against a concurrent insert of the same
identifier leaves exactly one row for `m2` and ends in a duplicate
skip. -/
theorem c1_witness :
    processMessage c1wEnv "m1" none c1wStore = (c1wStore, ⟨false, .skippedExisting⟩)
    ∧ emailCount (processMessage c1wEnv "m2" none ⟨0, [], []⟩).1 "m2" = 1
    ∧ (processMessage c1wEnv "m2" none ⟨0, [], []⟩).2 = ⟨true, .duplicateSkip⟩ := by
  refine ⟨(c1_idempotent_ingestion c1wEnv "m1" none c1wStore).1 (by decide), ?_, ?_⟩
  · exact ((c1_idempotent_ingestion c1wEnv "m2" none ⟨0, [], []⟩).2 c1wMsg
      (.mk none none none none none) rfl rfl rfl rfl (by decide)).1
  · exact ((c1_idempotent_ingestion c1wEnv "m2" none ⟨0, [], []⟩).2 c1wMsg
      (.mk none none none none none) rfl rfl rfl rfl (by decide)).2.1

/-! ## Branch reductions of `fetchEmails`, shared by C6/C7/C8 -/

theorem processBatch_ids (msgEnv : Nat → PMEnv) (uid : Option String) :
    ∀ (ids : List String) (i : Nat) (store : Store),
      (processBatch msgEnv uid i ids store).2.map Prod.fst = ids := by
  intro ids
  induction ids with
  | nil => intro i store; rfl
  | cons id rest ih =>
    intro i store
    simp only [processBatch, List.map_cons]
    rw [ih]

theorem fetchEmails_authFail (env : FetchEnv) (tok : TokenRec) (init : Bool)
    (store : Store) (h : env.authOk = false) :
    fetchEmails env tok init store = (store, tok, ⟨none, false, []⟩) := by
  unfold fetchEmails
  rw [h]
  rfl

theorem fetchEmails_history_got (env : FetchEnv) (tok : TokenRec) (store : Store)
    (ids : List String) (nh : Option String) (hauth : env.authOk = true)
    (hh : optStrTruthy tok.historyId = true) (hg : env.history = .got ids nh) :
    fetchEmails env tok false store
      = ((processBatch env.msgEnv (userIdArg tok) 0 ids store).1,
         (if optStrTruthy nh then { tok with historyId := nh } else tok),
         ⟨none, false, (processBatch env.msgEnv (userIdArg tok) 0 ids store).2⟩) := by
  unfold fetchEmails
  rw [hauth, hh, hg]
  rfl

theorem fetchEmails_history_err (env : FetchEnv) (tok : TokenRec) (store : Store)
    (hauth : env.authOk = true) (hh : optStrTruthy tok.historyId = true)
    (hg : env.history = .throwErr) :
    fetchEmails env tok false store
      = ((processBatch env.msgEnv (userIdArg tok) 0
            (getRecentMessages env.listOk env.mailbox 100) store).1, tok,
         ⟨some 100, false,
          (processBatch env.msgEnv (userIdArg tok) 0
            (getRecentMessages env.listOk env.mailbox 100) store).2⟩) := by
  unfold fetchEmails
  rw [hauth, hh, hg]
  rfl

theorem fetchEmails_backfill (env : FetchEnv) (tok : TokenRec) (init : Bool)
    (store : Store) (hauth : env.authOk = true)
    (hcond : (optStrTruthy tok.historyId && !init) = false) :
    fetchEmails env tok init store
      = ((processBatch env.msgEnv (userIdArg tok) 0
            (getRecentMessages env.listOk env.mailbox (backfillCap init)) store).1,
         (if init then setupGmailWatch env.watch tok else tok),
         ⟨some (backfillCap init), init,
          (processBatch env.msgEnv (userIdArg tok) 0
            (getRecentMessages env.listOk env.mailbox (backfillCap init)) store).2⟩) := by
  unfold fetchEmails
  rw [hauth, hcond]
  rfl

/-! ## C6 — NO_CURSOR rounds, watch registration and transition -/

/-- A processMessage environment whose remote calls all succeed
trivially (no mailbox contents are processed through it in the rounds
that use it). -/
def idlePMEnv : PMEnv :=
  ⟨.got ⟨none, none, none, none⟩, 0, false, [], true, fun _ => .throwErr,
   ⟨some "ROOT", .created none, fun _ => .throwErr⟩⟩

/-- Fully successful round environment over an empty mailbox whose
watch call, were it issued, would return cursor `777`. -/
def c6Env : FetchEnv :=
  ⟨true, .got [] none, true, [], some (some "777"), fun _ => idlePMEnv⟩

/-- A token with no stored cursor (`NO_CURSOR`). -/
def c6Tok : TokenRec := ⟨1, none, none⟩

/-- C6 counterexample.  The claim says every successful round on a
`NO_CURSOR` account registers a watch and transitions to `HAS_CURSOR`.
On a routine (non-initial-sync) round the source only calls
`setupGmailWatch` inside `if (isInitialSync)`: this fully successful
round performs the capped backfill but issues no watch call and leaves
the cursor absent. -/
theorem c6_counterexample :
    (fetchEmails c6Env c6Tok false ⟨0, [], []⟩).2.2.watchCalled = false
    ∧ (fetchEmails c6Env c6Tok false ⟨0, [], []⟩).2.1.historyId = none
    ∧ (fetchEmails c6Env c6Tok false ⟨0, [], []⟩).2.2.backfillCap = some 100 := by
  have hred := fetchEmails_backfill c6Env c6Tok false ⟨0, [], []⟩ rfl rfl
  rw [hred]
  exact ⟨rfl, rfl, rfl⟩

/-- C6 (amended).  On a `NO_CURSOR` account a round always performs the
capped full-listing backfill, but the watch registration and the
`HAS_CURSOR` transition happen only when the round is an explicit
initial-sync request: a routine round leaves the token untouched and
issues no watch call, while an initial-sync round uses the larger cap,
issues the watch call and — when the watch returns a truthy cursor —
persists it on the token. -/
theorem c6_no_cursor_round (env : FetchEnv) (tok : TokenRec) (store : Store)
    (h : String) (hno : optStrTruthy tok.historyId = false)
    (hauth : env.authOk = true) :
    ((fetchEmails env tok false store).2.2.backfillCap = some 100
      ∧ (fetchEmails env tok false store).2.2.watchCalled = false
      ∧ (fetchEmails env tok false store).2.1 = tok
      ∧ (fetchEmails env tok false store).2.2.processed.map Prod.fst
          = getRecentMessages env.listOk env.mailbox 100)
    ∧ (env.watch = some (some h) → h ≠ "" →
        (fetchEmails env tok true store).2.2.backfillCap = some 2000
        ∧ (fetchEmails env tok true store).2.2.watchCalled = true
        ∧ (fetchEmails env tok true store).2.1.historyId = some h
        ∧ (fetchEmails env tok true store).2.2.processed.map Prod.fst
            = getRecentMessages env.listOk env.mailbox 2000) := by
  constructor
  · have hred := fetchEmails_backfill env tok false store hauth (by rw [hno]; rfl)
    rw [hred]
    exact ⟨rfl, rfl, rfl, processBatch_ids env.msgEnv (userIdArg tok) _ 0 store⟩
  · intro hw hwne
    have hred := fetchEmails_backfill env tok true store hauth (by simp)
    rw [hred]
    refine ⟨rfl, rfl, ?_, processBatch_ids env.msgEnv (userIdArg tok) _ 0 store⟩
    show (setupGmailWatch env.watch tok).historyId = some h
    rw [hw]
    show (if optStrTruthy (some h) = true then
        ({ tok with historyId := some h } : TokenRec) else tok).historyId = some h
    rw [if_pos (by simp [optStrTruthy, hwne])]

/-- C6 witness: a concrete initial-sync round on a cursor-less token
registers the watch and persists its returned cursor `777`, with the
2000-message cap. -/
theorem c6_witness :
    (fetchEmails c6Env c6Tok true ⟨0, [], []⟩).2.2.backfillCap = some 2000
    ∧ (fetchEmails c6Env c6Tok true ⟨0, [], []⟩).2.2.watchCalled = true
    ∧ (fetchEmails c6Env c6Tok true ⟨0, [], []⟩).2.1.historyId = some "777" := by
  obtain ⟨h1, h2, h3, h4⟩ :=
    (c6_no_cursor_round c6Env c6Tok ⟨0, [], []⟩ "777" rfl rfl).2 rfl (by decide)
  exact ⟨h1, h2, h3⟩

/-! ## C7 — stale-cursor fallback preserves the cursor -/

/-- C7.  With a stored cursor and a thrown history listing, the routine
round falls back to the 100-capped full listing, issues no watch call,
and returns the token — cursor included — unchanged; and across every
round whatsoever, the persisted cursor is either left as it was, set to
a successful history response's new cursor, or set to a watch
response's cursor — nothing else ever overwrites it. -/
theorem c7_stale_cursor_fallback (env : FetchEnv) (tok : TokenRec) (store : Store)
    (hh : optStrTruthy tok.historyId = true) (hg : env.history = .throwErr)
    (hauth : env.authOk = true) :
    ((fetchEmails env tok false store).2.1 = tok
      ∧ (fetchEmails env tok false store).2.2.backfillCap = some 100
      ∧ (fetchEmails env tok false store).2.2.watchCalled = false
      ∧ (fetchEmails env tok false store).2.2.processed.map Prod.fst
          = getRecentMessages env.listOk env.mailbox 100)
    ∧ (∀ (env2 : FetchEnv) (tok2 : TokenRec) (init2 : Bool) (store2 : Store),
        (fetchEmails env2 tok2 init2 store2).2.1.historyId = tok2.historyId
        ∨ (∃ ids nh, env2.history = .got ids nh
            ∧ (fetchEmails env2 tok2 init2 store2).2.1.historyId = nh)
        ∨ (∃ hw, env2.watch = some hw
            ∧ (fetchEmails env2 tok2 init2 store2).2.1.historyId = hw)) := by
  constructor
  · have hred := fetchEmails_history_err env tok store hauth hh hg
    rw [hred]
    exact ⟨rfl, rfl, rfl, processBatch_ids env.msgEnv (userIdArg tok) _ 0 store⟩
  · intro env2 tok2 init2 store2
    cases hauth2 : env2.authOk with
    | false => rw [fetchEmails_authFail env2 tok2 init2 store2 hauth2]; exact Or.inl rfl
    | true =>
      cases hcond : (optStrTruthy tok2.historyId && !init2) with
      | true =>
        have hh2 : optStrTruthy tok2.historyId = true := by
          cases h2 : optStrTruthy tok2.historyId with
          | true => rfl
          | false => rw [h2] at hcond; simp at hcond
        have hinit : init2 = false := by
          cases h2 : init2 with
          | false => rfl
          | true => rw [h2] at hcond; simp at hcond
        subst hinit
        cases hg2 : env2.history with
        | got ids nh =>
          rw [fetchEmails_history_got env2 tok2 store2 ids nh hauth2 hh2 hg2]
          by_cases htr : optStrTruthy nh = true
          · rw [if_pos htr]
            exact Or.inr (Or.inl ⟨ids, nh, rfl, rfl⟩)
          · rw [if_neg htr]
            exact Or.inl rfl
        | throwErr =>
          rw [fetchEmails_history_err env2 tok2 store2 hauth2 hh2 hg2]
          exact Or.inl rfl
      | false =>
        rw [fetchEmails_backfill env2 tok2 init2 store2 hauth2 hcond]
        cases init2 with
        | false => exact Or.inl rfl
        | true =>
          rw [if_pos rfl]
          cases hw : env2.watch with
          | none => exact Or.inl rfl
          | some hid =>
            by_cases htr : optStrTruthy hid = true
            · refine Or.inr (Or.inr ⟨hid, rfl, ?_⟩)
              show (if optStrTruthy hid = true then
                  ({ tok2 with historyId := hid } : TokenRec) else tok2).historyId = hid
              rw [if_pos htr]
            · refine Or.inl ?_
              show (if optStrTruthy hid = true then
                  ({ tok2 with historyId := hid } : TokenRec) else tok2).historyId
                = tok2.historyId
              rw [if_neg htr]

/-- Round environment for the C7 witness: stale cursor (history listing
throws), one message in the mailbox. -/
def c7wEnv : FetchEnv :=
  ⟨true, .throwErr, true, ["a1"], none, fun _ => idlePMEnv⟩

/-- Token with a stored cursor for the C7 witness. -/
def c7wTok : TokenRec := ⟨1, none, some "42"⟩

/-- C7 witness: the concrete stale-cursor round keeps cursor `42`, uses
the 100 cap and processes the full-listing candidates. -/
theorem c7_witness :
    (fetchEmails c7wEnv c7wTok false ⟨0, [], []⟩).2.1 = c7wTok
    ∧ (fetchEmails c7wEnv c7wTok false ⟨0, [], []⟩).2.2.backfillCap = some 100
    ∧ (fetchEmails c7wEnv c7wTok false ⟨0, [], []⟩).2.2.processed.map Prod.fst
        = getRecentMessages c7wEnv.listOk c7wEnv.mailbox 100 := by
  obtain ⟨⟨h1, h2, h3, h4⟩, hgen⟩ :=
    c7_stale_cursor_fallback c7wEnv c7wTok ⟨0, [], []⟩ rfl rfl rfl
  exact ⟨h1, h2, h4⟩

/-! ## C8 — per-message error isolation in a batch -/

/-- C8.  The batch loop attempts every candidate identifier: for every
environment sequence — including ones whose per-message pipelines fail —
the trace carries one entry per identifier, in order; and an error
thrown inside one message's pipeline (here: the remote fetch throwing)
is caught at the pipeline boundary, producing a normal return with a
`failed` outcome and an unchanged store instead of propagating. -/
theorem c8_batch_attempts_all (msgEnv : Nat → PMEnv) (uid : Option String)
    (ids : List String) (i : Nat) (store : Store) :
    (processBatch msgEnv uid i ids store).2.map Prod.fst = ids
    ∧ (∀ (env : PMEnv) (id : String) (u : Option String) (n : Nat)
        (atts : List AttachmentRec),
        processMessage { env with fetchMessage := .throwErr } id u ⟨n, [], atts⟩
          = (⟨n, [], atts⟩, ⟨true, .failed⟩)) := by
  refine ⟨processBatch_ids msgEnv uid ids i store, ?_⟩
  intro env id u n atts
  rfl

end Earc
